import Mathlib

/-!
Verification development for the V8Simple embedding layer
(`src/V8Simple.cpp`, `src/V8Simple.h`).

The C++ source is shallowly embedded: native V8 values become an inductive
of the engine's value categories, the tagged `Value` hierarchy becomes an
inductive with a tag accessor, fallible C++ code (code that throws
`ScriptException` or `std::runtime_error`) returns `Except`, and the
stateful pieces (the `UniqueValueVector` argument protocol, the callback
retain/release counting, the `Context` singleton) are modelled by explicit
state passing.
-/

namespace V8Simple

/-- The `Type` enum of `V8Simple.h` (named `Tag` here because `Type` is a
Lean keyword): the tag reported by `Value::GetValueType`. -/
inductive Tag where
  | Int | Double | String | Bool | Object | Array | Function | Callback
deriving DecidableEq, Repr

/-- The structured exception of `V8Simple.h` (`struct ScriptException`):
an immutable snapshot of the diagnostic fields, in the field order of the
source (`Name, ErrorMessage, FileName, StackTrace, SourceLine, LineNumber`).
String fields are modelled as Lean strings (the UTF-8 content of the
`v8::String::Utf8Value` copies the constructor takes). -/
structure ScriptExc where
  Name : String
  ErrorMessage : String
  FileName : String
  StackTrace : String
  SourceLine : String
  LineNumber : Int
deriving DecidableEq, Repr

/-- The `Value` class hierarchy of `V8Simple.h` as a closed sum.
`double` payloads are abstract tokens (`Nat`) naming the numeric value
(floating-point arithmetic is never performed by the marshaling code);
`str` carries the UTF-8 bytes; `object`/`array`/`function` carry an
abstract handle naming the persistent reference into the engine heap;
`callback` carries an identity for the embedder-supplied callback. -/
inductive Value where
  | int (n : Int)
  | double (t : Nat)
  | str (bytes : List Nat)
  | bool (b : Bool)
  | object (h : Nat)
  | array (h : Nat)
  | function (h : Nat)
  | callback (id : Nat)
deriving DecidableEq, Repr

/-- `Value::GetValueType` (the virtual tag accessor, `V8Simple.h`). -/
def Value.GetValueType : Value → Tag
  | .int _ => .Int
  | .double _ => .Double
  | .str _ => .String
  | .bool _ => .Bool
  | .object _ => .Object
  | .array _ => .Array
  | .function _ => .Function
  | .callback _ => .Callback

/-- A native V8 value (`v8::Local<v8::Value>`), by engine category.

For the two boxed categories whose unboxing conversion can run script code
and hence fault (`NumberValue` on a boxed Number with a user `valueOf`,
`ToString` on a boxed String with a user `toString`), the constructor
carries the conversion's outcome as an oracle: `.ok payload` when the
conversion succeeds, `.error e` when it faults, `e` being the
`ScriptException` the translator builds from the capture region.
All other conversions used by `Value::Wrap` (`Int32Value` on an `IsInt32`
value, `NumberValue` on a primitive number, `BooleanValue`, `ToString` on
a primitive string, `ToObject` on an object) cannot fault.
`other` covers the remaining engine categories (e.g. Symbol, External). -/
inductive NativeValue where
  | int32 (n : Int)
  | number (t : Nat)
  | numberObject (conv : Except ScriptExc Nat)
  | boolean (b : Bool)
  | booleanObject (b : Bool)
  | str (bytes : List Nat)
  | stringObject (conv : Except ScriptExc (List Nat))
  | array (h : Nat)
  | function (h : Nat)
  | object (h : Nat)
  | nullV
  | undefined
  | other
deriving Repr

/-- `v8::Value::IsInt32`. -/
def isInt32 : NativeValue → Bool
  | .int32 _ => true
  | _ => false

/-- `v8::Value::IsNumber` (true for every primitive number, including one
representable as an int32; false for a boxed Number). -/
def isNumber : NativeValue → Bool
  | .int32 _ => true
  | .number _ => true
  | _ => false

/-- `v8::Value::IsNumberObject` (boxed Number). -/
def isNumberObject : NativeValue → Bool
  | .numberObject _ => true
  | _ => false

/-- `v8::Value::IsBoolean` (primitive boolean). -/
def isBoolean : NativeValue → Bool
  | .boolean _ => true
  | _ => false

/-- `v8::Value::IsBooleanObject` (boxed Boolean). -/
def isBooleanObject : NativeValue → Bool
  | .booleanObject _ => true
  | _ => false

/-- `v8::Value::IsString` (primitive string). -/
def isString : NativeValue → Bool
  | .str _ => true
  | _ => false

/-- `v8::Value::IsStringObject` (boxed String). -/
def isStringObject : NativeValue → Bool
  | .stringObject _ => true
  | _ => false

/-- `v8::Value::IsArray`. -/
def isArray : NativeValue → Bool
  | .array _ => true
  | _ => false

/-- `v8::Value::IsFunction`. -/
def isFunction : NativeValue → Bool
  | .function _ => true
  | _ => false

/-- `v8::Value::IsObject`: true for every object, which includes the boxed
scalar wrappers, arrays and functions — the categories overlap. -/
def isObject : NativeValue → Bool
  | .numberObject _ => true
  | .booleanObject _ => true
  | .stringObject _ => true
  | .array _ => true
  | .function _ => true
  | .object _ => true
  | _ => false

/-- `v8::Value::IsUndefined`. -/
def isUndefined : NativeValue → Bool
  | .undefined => true
  | _ => false

/-- `v8::Value::IsNull`. -/
def isNull : NativeValue → Bool
  | .nullV => true
  | _ => false

/-- `value->Int32Value(context)` on the `IsInt32` branch: total there.
The catch-all arm is never reached on the `Wrap` path (guarded by
`isInt32`). -/
def int32Value : NativeValue → Int
  | .int32 n => n
  | _ => 0

/-- `value->NumberValue(context)`: total on primitive numbers, oracle
outcome on a boxed Number. The catch-all arm is never reached on the
`Wrap` path (guarded by `isNumber || isNumberObject`). For an `IsInt32`
value the branch is not taken, so the token is irrelevant. -/
def numberValue : NativeValue → Except ScriptExc Nat
  | .number t => .ok t
  | .numberObject c => c
  | _ => .ok 0

/-- `value->BooleanValue(context)`: total (`ToBoolean` never faults).
The catch-all arm is never reached on the `Wrap` path. -/
def booleanValue : NativeValue → Bool
  | .boolean b => b
  | .booleanObject b => b
  | _ => false

/-- `value->ToString(context)` followed by `v8::String::Utf8Value`: total
on a primitive string, oracle outcome on a boxed String. The catch-all
arm is never reached on the `Wrap` path. -/
def toStringUtf8 : NativeValue → Except ScriptExc (List Nat)
  | .str s => .ok s
  | .stringObject c => c
  | _ => .ok []

/-- `value->ToObject(context)` on an object category: total there, yields
the persistent handle the wrapper stores. -/
def objectHandle : NativeValue → Nat
  | .array h => h
  | .function h => h
  | .object h => h
  | _ => 0

/-- A C++ exception thrown across the marshaling layer: either the
structured `ScriptException` raised by `Throw`, or a `std::runtime_error`
carrying a message. -/
inductive Thrown where
  | script (e : ScriptExc)
  | runtime (msg : String)
deriving DecidableEq, Repr

/-- `Value::Wrap(const V8Scope&, v8::Local<v8::Value>)`
(`V8Simple.cpp` lines 155-208): the if-chain dispatch, in source order.
A branch whose native conversion faults raises `ScriptException` through
`FromJust`/`Throw` (modelled `.error (.script e)`); the fall-through
raises `std::runtime_error("Unhandled type in V8Simple")`. -/
def Value.Wrap (value : NativeValue) : Except Thrown (Option Value) :=
  if isInt32 value then
    .ok (some (.int (int32Value value)))
  else if isNumber value || isNumberObject value then
    match numberValue value with
    | .ok t => .ok (some (.double t))
    | .error e => .error (.script e)
  else if isBoolean value || isBooleanObject value then
    .ok (some (.bool (booleanValue value)))
  else if isString value || isStringObject value then
    match toStringUtf8 value with
    | .ok s => .ok (some (.str s))
    | .error e => .error (.script e)
  else if isArray value then
    .ok (some (.array (objectHandle value)))
  else if isFunction value then
    .ok (some (.function (objectHandle value)))
  else if isObject value then
    .ok (some (.object (objectHandle value)))
  else if isUndefined value || isNull value then
    .ok none
  else
    .error (.runtime "Unhandled type in V8Simple")

/-- The payload-erased engine category of a native value (used to state
that `Wrap` is deterministic per category). -/
inductive NatCategory where
  | int32 | number | numberObject | boolean | booleanObject
  | str | stringObject | array | function | object
  | nullV | undefined | other
deriving DecidableEq, Repr

/-- Category of a native value. -/
def natCat : NativeValue → NatCategory
  | .int32 _ => .int32
  | .number _ => .number
  | .numberObject _ => .numberObject
  | .boolean _ => .boolean
  | .booleanObject _ => .booleanObject
  | .str _ => .str
  | .stringObject _ => .stringObject
  | .array _ => .array
  | .function _ => .function
  | .object _ => .object
  | .nullV => .nullV
  | .undefined => .undefined
  | .other => .other

/-- Shape of a `Wrap` outcome: the produced tag, the absent value, a
script fault, or the unrecoverable-state (runtime) fault. -/
inductive WrapShape where
  | tag (t : Tag)
  | absent
  | scriptFault (e : ScriptExc)
  | runtimeFault
deriving DecidableEq, Repr

/-- Shape of a concrete `Value.Wrap` result. -/
def wrapShape : Except Thrown (Option Value) → WrapShape
  | .ok none => .absent
  | .ok (some v) => .tag v.GetValueType
  | .error (.script e) => .scriptFault e
  | .error (.runtime _) => .runtimeFault

/-- Modelled from the spec's words (§4.4): the ordered branch list of the
Wrap dispatch — predicate paired with the branch's outcome (a target tag
or the absent value). Branch 9 (unrecognized category → fault) is the
fall-through of `specWrap`. -/
def specBranches : List ((NativeValue → Bool) × Option Tag) :=
  [ (fun v => isInt32 v, some .Int),
    (fun v => isNumber v || isNumberObject v, some .Double),
    (fun v => isBoolean v || isBooleanObject v, some .Bool),
    (fun v => isString v || isStringObject v, some .String),
    (fun v => isArray v, some .Array),
    (fun v => isFunction v, some .Function),
    (fun v => isObject v, some .Object),
    (fun v => isUndefined v || isNull v, none) ]

/-- The conversion fault pending for a native value, if its unboxing
conversion faults (spec §4.4: "Each branch that invokes a native
conversion that can fail must check the active guard's capture region
first and invoke the Exception Translator if a fault is pending"). -/
def convFault : NativeValue → Option ScriptExc
  | .numberObject (.error e) => some e
  | .stringObject (.error e) => some e
  | _ => none

/-- Modelled from the spec's words (§4.4): first-match dispatch over the
ordered branch list; a matching tag branch whose conversion faults yields
the script fault, and no match at all is the unrecoverable-state fault. -/
def specWrap (v : NativeValue) : WrapShape :=
  match specBranches.find? (fun p => p.1 v) with
  | some (_, some t) =>
    match convFault v with
    | some e => .scriptFault e
    | none => .tag t
  | some (_, none) => .absent
  | none => .runtimeFault

/-- Extract the tag a wrap shape produced, if any. -/
def shapeTag : WrapShape → Option Tag
  | .tag t => some t
  | _ => none

/-- The tag a category produces when its wrap succeeds with a tag (the
arms for categories that never produce a tag are arbitrary). -/
def catTag : NatCategory → Tag
  | .int32 => .Int
  | .number => .Double
  | .numberObject => .Double
  | .boolean => .Bool
  | .booleanObject => .Bool
  | .str => .String
  | .stringObject => .String
  | .array => .Array
  | .function => .Function
  | .object => .Object
  | .nullV => .Int
  | .undefined => .Int
  | .other => .Int

/-- Any tag `Wrap` produces is a function of the native category alone. -/
theorem wrap_tag_of_cat (v : NativeValue) (t : Tag)
    (h : shapeTag (wrapShape (Value.Wrap v)) = some t) :
    t = catTag (natCat v) := by
  cases v <;>
    first
    | (rename_i c
       cases c <;>
         simp_all [Value.Wrap, wrapShape, shapeTag, natCat, catTag,
           isInt32, isNumber, isNumberObject, isBoolean, isBooleanObject,
           isString, isStringObject, isArray, isFunction, isObject,
           isUndefined, isNull, numberValue, toStringUtf8, booleanValue,
           int32Value, objectHandle, Value.GetValueType])
    | simp_all [Value.Wrap, wrapShape, shapeTag, natCat, catTag,
        isInt32, isNumber, isNumberObject, isBoolean, isBooleanObject,
        isString, isStringObject, isArray, isFunction, isObject,
        isUndefined, isNull, numberValue, toStringUtf8, booleanValue,
        int32Value, objectHandle, Value.GetValueType]

/-- C1. `Value::Wrap` dispatches on the native value's category in the
exact spec precedence (Int32, Numeric incl. boxed, Boolean incl. boxed,
String incl. boxed, Array, Function, remaining Object, null/undefined,
fault): for every native value its outcome equals the first-match
dispatch over the spec's ordered branch list; the same native category
never yields two different tags; and a boxed Number, though it is also an
Object, wraps to Double, not Object. -/
theorem wrap_dispatch_precedence :
    (∀ v : NativeValue, wrapShape (Value.Wrap v) = specWrap v) ∧
    (∀ v w : NativeValue, ∀ a b : Tag, natCat v = natCat w →
      shapeTag (wrapShape (Value.Wrap v)) = some a →
      shapeTag (wrapShape (Value.Wrap w)) = some b → a = b) ∧
    (∀ t : Nat, isObject (NativeValue.numberObject (.ok t)) = true ∧
      Value.Wrap (NativeValue.numberObject (.ok t)) =
        .ok (some (Value.double t))) := by
  refine ⟨?_, ?_, ?_⟩
  · intro v
    cases v <;>
      first
      | rfl
      | (rename_i c; cases c <;> rfl)
  · intro v w a b hcat ha hb
    rw [wrap_tag_of_cat v a ha, wrap_tag_of_cat w b hb, hcat]
  · intro t
    exact ⟨rfl, rfl⟩

/-- Witness for C1 at concrete inputs: a boxed Number and a plain object
share no category constraint, and two boxed Numbers with distinct payloads
give the same tag. -/
theorem wrap_dispatch_precedence_witness :
    natCat (NativeValue.numberObject (.ok 1)) =
      natCat (NativeValue.numberObject (.ok 2)) ∧
    shapeTag (wrapShape (Value.Wrap (NativeValue.numberObject (.ok 1)))) =
      some Tag.Double ∧
    shapeTag (wrapShape (Value.Wrap (NativeValue.numberObject (.ok 2)))) =
      some Tag.Double ∧
    Tag.Double = Tag.Double := by
  refine ⟨rfl, rfl, rfl, ?_⟩
  exact wrap_dispatch_precedence.2.1 (NativeValue.numberObject (.ok 1))
    (NativeValue.numberObject (.ok 2)) Tag.Double Tag.Double rfl rfl rfl

/-- C8. Null and undefined native values both Wrap to the absent value
(`nullptr`: no `Value` instance), never to an error or fault
(`V8Simple.cpp` lines 203-206). -/
theorem wrap_null_undefined_absent :
    Value.Wrap NativeValue.nullV = .ok none ∧
    Value.Wrap NativeValue.undefined = .ok none := ⟨rfl, rfl⟩

/-! ## UniqueValueVector and the callback bridge's argument ownership -/

/-- `UniqueValueVector::Get` (`V8Simple.cpp` lines 709-714):
`Value* result = nullptr; std::swap(_values.at(index), result); return result;`.
The state is the underlying `std::vector<Value*>` (a `Value*` slot is an
`Option Value`, `none` being the null pointer). `at` throws
`std::out_of_range` on a bad index; otherwise the slot is swapped to null
and its previous content returned. -/
def uvvGet (vs : List (Option Value)) (index : Nat) :
    Except String (Option Value × List (Option Value)) :=
  if h : index < vs.length then
    .ok (vs.get ⟨index, h⟩, vs.set index none)
  else
    .error "std::out_of_range"

/-- A sequence of takes performed by the embedder callback's call
operation on the (shared, by-reference) vector: each listed index is
taken with `uvvGet`. An out-of-range take would throw out of the
callback; its arm leaves the state unchanged and is unreachable for a
callback that takes argument indices. -/
def takeAll (tks : List Nat) (vs : List (Option Value)) :
    List (Option Value) :=
  match tks with
  | [] => vs
  | i :: rest =>
    match uvvGet vs i with
    | .ok (_, vs') => takeAll rest vs'
    | .error _ => takeAll rest vs

theorem takeAll_length (tks : List Nat) (vs : List (Option Value)) :
    (takeAll tks vs).length = vs.length := by
  induction tks generalizing vs with
  | nil => rfl
  | cons i rest ih =>
    by_cases h : i < vs.length <;>
      simp [takeAll, uvvGet, h, ih]

theorem takeAll_getElem? (tks : List Nat) (vs : List (Option Value))
    (j : Nat) :
    (takeAll tks vs)[j]? =
      if j ∈ tks ∧ j < vs.length then some none else vs[j]? := by
  induction tks generalizing vs with
  | nil => simp [takeAll]
  | cons i rest ih =>
    by_cases h : i < vs.length
    · simp only [takeAll, uvvGet, dif_pos h]
      rw [ih, List.length_set]
      by_cases hj : j ∈ rest
      · by_cases hl : j < vs.length
        · simp [hj, hl, List.mem_cons]
        · have h1 : (vs.set i none)[j]? = none :=
            List.getElem?_eq_none (by simpa using Nat.le_of_not_lt hl)
          have h2 : vs[j]? = none :=
            List.getElem?_eq_none (Nat.le_of_not_lt hl)
          simp [hj, hl, h1, h2, List.mem_cons]
      · by_cases hji : j = i
        · subst hji
          simp [hj, h, List.getElem?_set_self h, List.mem_cons]
        · simp [hj, hji, List.getElem?_set_ne (Ne.symm hji),
            List.mem_cons]
    · simp only [takeAll, uvvGet, dif_neg h]
      rw [ih]
      by_cases hj : j ∈ rest
      · simp [hj, List.mem_cons]
      · by_cases hji : j = i
        · subst hji
          simp [hj, List.mem_cons, h]
        · simp [hj, hji, List.mem_cons]

/-- C9. On any `UniqueValueVector` state reached from `vs` by a sequence
`tks` of prior takes, taking an in-range index `i` returns the element
originally stored at `i` if `i` was never taken before and the null
(absent) pointer if it was — so the first take of an index returns the
original element, every subsequent take of it returns an absent value,
and takes of other indices never affect it. -/
theorem unique_vector_take_once (vs : List (Option Value))
    (tks : List Nat) (i : Nat) (h : i < vs.length) :
    uvvGet (takeAll tks vs) i =
      .ok (if i ∈ tks then none else vs[i],
           (takeAll tks vs).set i none) := by
  have hlen : i < (takeAll tks vs).length := by rw [takeAll_length]; exact h
  have hget : (takeAll tks vs)[i] = if i ∈ tks then none else vs[i] := by
    have hq := takeAll_getElem? tks vs i
    rw [List.getElem?_eq_getElem hlen, List.getElem?_eq_getElem h] at hq
    by_cases hi : i ∈ tks
    · simp only [hi, h, and_self, if_true] at hq
      simpa [hi] using hq
    · simp only [hi, false_and, if_false] at hq
      simpa [hi] using hq
  simp [uvvGet, dif_pos hlen, List.get_eq_getElem, hget]

/-- Witness for C9: after taking index 0 from a two-element vector, a
take of index 0 yields the absent value while a take of index 1 still
yields the original element. -/
theorem unique_vector_take_once_witness :
    uvvGet (takeAll [0] [some (Value.int 7), some (Value.int 8)]) 0 =
      .ok (none, [none, some (Value.int 8)]) ∧
    uvvGet (takeAll [0] [some (Value.int 7), some (Value.int 8)]) 1 =
      .ok (some (Value.int 8), [none, none]) := by
  constructor
  · have := unique_vector_take_once
      [some (Value.int 7), some (Value.int 8)] [0] 0 (by decide)
    simpa using this
  · have := unique_vector_take_once
      [some (Value.int 7), some (Value.int 8)] [0] 1 (by decide)
    simpa using this

/-- The release loop of the callback-invocation lambda (`V8Simple.cpp`
lines 298-302):
`int len = args.Length(); for (int i = 0; i < len; ++i) delete args.Get(i);`.
Each iteration takes slot `i` with `uvvGet` and deletes the returned
pointer; deleting the null pointer returned for an already-taken slot is
a no-op. The remaining iteration count is the structural fuel. Returns
the (index, value) pairs actually deleted and the final vector state. -/
def sweepFrom (vs : List (Option Value)) (i : Nat) :
    Nat → List (Nat × Value) × List (Option Value)
  | 0 => ([], vs)
  | fuel + 1 =>
    match uvvGet vs i with
    | .ok (some a, vs') =>
      let r := sweepFrom vs' (i + 1) fuel
      ((i, a) :: r.1, r.2)
    | .ok (none, vs') => sweepFrom vs' (i + 1) fuel
    | .error _ => ([], vs)

/-- The whole release loop: `len = args.Length()` iterations from 0. -/
def bridgeSweep (vs : List (Option Value)) :
    List (Nat × Value) × List (Option Value) :=
  sweepFrom vs 0 vs.length

theorem sweepFrom_deleted (fuel : Nat) :
    ∀ (vs : List (Option Value)) (i : Nat), i + fuel ≤ vs.length →
    (sweepFrom vs i fuel).1 =
      (List.range' i fuel).filterMap
        (fun j => (vs[j]?.bind id).map (fun a => (j, a))) := by
  induction fuel with
  | zero => intro vs i _; simp [sweepFrom]
  | succ fuel ih =>
    intro vs i h
    have hi : i < vs.length := by omega
    have hrest :
        (List.range' (i + 1) fuel).filterMap
          (fun j => ((vs.set i none)[j]?.bind id).map (fun a => (j, a))) =
        (List.range' (i + 1) fuel).filterMap
          (fun j => (vs[j]?.bind id).map (fun a => (j, a))) := by
      apply List.filterMap_congr
      intro j hj
      have hji : i ≠ j := by
        rcases List.mem_range'.1 hj with ⟨k, _, rfl⟩
        omega
      rw [List.getElem?_set_ne hji]
    have hlen' : (i + 1) + fuel ≤ (vs.set i none).length := by
      simp [List.length_set]; omega
    have hih := ih (vs.set i none) (i + 1) hlen'
    rw [List.range'_succ, List.filterMap_cons]
    have hvi : vs[i]? = some vs[i] := List.getElem?_eq_getElem hi
    simp only [sweepFrom, uvvGet, dif_pos hi, List.get_eq_getElem]
    cases hv : vs[i] with
    | none =>
      simp [hvi, hv, hih]
      simpa using hrest
    | some a =>
      simp [hvi, hv, hih]
      simpa using hrest

theorem range'_one_nodup (s n : Nat) : (List.range' s n).Nodup := by
  induction n generalizing s with
  | zero => simp
  | succ n ih =>
    rw [List.range'_succ]
    refine List.Pairwise.cons ?_ (ih (s + 1))
    intro m hm
    rcases List.mem_range'.1 hm with ⟨k, _, rfl⟩
    omega

/-- C3. For an invocation of a bridged Callback whose argument vector
state is `vs` after wrapping, and whose call operation takes exactly the
indices listed in `tks`, the bridge's release loop deletes exactly the
arguments at in-range indices not in `tks` (each exactly once: the
deleted index list is duplicate-free), and deletes no argument at an
index in `tks`. -/
theorem bridge_releases_untaken_once (vs : List (Option Value))
    (tks : List Nat) :
    (∀ j a, (j, a) ∈ (bridgeSweep (takeAll tks vs)).1 ↔
      (j < vs.length ∧ j ∉ tks ∧ vs[j]? = some (some a))) ∧
    ((bridgeSweep (takeAll tks vs)).1.map Prod.fst).Nodup := by
  have hlen : (takeAll tks vs).length = vs.length := takeAll_length tks vs
  have hdel : (bridgeSweep (takeAll tks vs)).1 =
      (List.range' 0 vs.length).filterMap
        (fun j => ((takeAll tks vs)[j]?.bind id).map (fun a => (j, a))) := by
    have := sweepFrom_deleted (takeAll tks vs).length (takeAll tks vs) 0
      (by omega)
    rw [bridgeSweep, this, hlen]
  have hmem : ∀ j a, (j, a) ∈ (bridgeSweep (takeAll tks vs)).1 ↔
      (j < vs.length ∧ j ∉ tks ∧ vs[j]? = some (some a)) := by
    intro j a
    rw [hdel, List.mem_filterMap]
    constructor
    · rintro ⟨x, hx, hfx⟩
      rcases Option.map_eq_some'.1 hfx with ⟨b, hb, hpair⟩
      have h1 : x = j := congrArg Prod.fst hpair
      have h2 : b = a := congrArg Prod.snd hpair
      subst x
      subst b
      have hjlen : j < vs.length := by
        rcases List.mem_range'.1 hx with ⟨k, hk, rfl⟩
        omega
      rw [takeAll_getElem? tks vs j] at hb
      by_cases hj : j ∈ tks
      · simp [hj, hjlen] at hb
      · refine ⟨hjlen, hj, ?_⟩
        simp [hj] at hb
        cases hvj : vs[j]? with
        | none => rw [hvj] at hb; simp at hb
        | some o =>
          rw [hvj] at hb
          cases o with
          | none => simp at hb
          | some c => simp at hb; rw [hb]
    · rintro ⟨hjlen, hj, hvj⟩
      refine ⟨j, ?_, ?_⟩
      · exact List.mem_range'.2 ⟨j, by omega, by omega⟩
      · rw [takeAll_getElem? tks vs j]
        simp [hj, hvj]
  refine ⟨hmem, ?_⟩
  have hpairs : (bridgeSweep (takeAll tks vs)).1.Nodup := by
    rw [hdel]
    refine List.Nodup.filterMap ?_ (range'_one_nodup 0 vs.length)
    intro x x' b hb hb'
    rcases Option.map_eq_some'.1 hb with ⟨c, _, hc⟩
    rcases Option.map_eq_some'.1 hb' with ⟨c', _, hc'⟩
    have h1 : b.1 = x := by rw [← hc]
    have h2 : b.1 = x' := by rw [← hc']
    omega
  refine List.Nodup.map_on ?_ hpairs
  rintro ⟨x, a⟩ hx ⟨y, b⟩ hy hxy
  simp only at hxy
  subst hxy
  have h1 := (hmem x a).1 hx
  have h2 := (hmem x b).1 hy
  have : some a = some b := by
    have := h1.2.2.symm.trans h2.2.2
    simpa using this
  simp at this
  rw [this]

/-- Witness for C3 at a concrete invocation: three arguments, the
callback takes index 0; the bridge deletes exactly indices 1 and 2. -/
theorem bridge_releases_untaken_once_witness :
    ((1, Value.int 8) ∈
      (bridgeSweep (takeAll [0]
        [some (Value.int 7), some (Value.int 8), some (Value.int 9)])).1) ∧
    ¬ ((0, Value.int 7) ∈
      (bridgeSweep (takeAll [0]
        [some (Value.int 7), some (Value.int 8), some (Value.int 9)])).1) := by
  constructor
  · exact (bridge_releases_untaken_once
      [some (Value.int 7), some (Value.int 8), some (Value.int 9)]
      [0]).1 1 (Value.int 8) |>.2 (by exact ⟨by decide, by decide, rfl⟩)
  · intro hmem
    have := (bridge_releases_untaken_once
      [some (Value.int 7), some (Value.int 8), some (Value.int 9)]
      [0]).1 0 (Value.int 7) |>.1 hmem
    simp at this

/-- The argument-wrapping loop of the callback-invocation lambda
(`V8Simple.cpp` lines 276-290): `wrappedArgs.push_back(Wrap(scope, info[i]))`
for `i = 0..N-1`, inside a try block. A throw aborts the loop, leaving
the already-pushed prefix in `wrappedArgs`; the escaped exception (if
any) is returned alongside the vector contents. -/
def wrapArgsLoop : List NativeValue → List (Option Value) × Option Thrown
  | [] => ([], none)
  | a :: rest =>
    match Value.Wrap a with
    | .ok v =>
      let r := wrapArgsLoop rest
      (v :: r.1, r.2)
    | .error e => ([], some e)

/-- What the bridged invocation delivered: runtime-fault handler
messages, the argument vector handed to the callback's `Call`, the
(index, value) pairs the bridge's release loop deleted, and the value
handed to `Unwrap` for the native return slot. -/
structure BridgeOutcome where
  faults : List String
  callbackArgs : List (Option Value)
  released : List (Nat × Value)
  retVal : Option Value
deriving DecidableEq, Repr

/-- The function-callback lambda registered by the Callback branch of
`Value::Unwrap` (`V8Simple.cpp` lines 272-307): wrap all arguments — the
surrounding catch clause handles only `std::runtime_error`, reporting it
via `Context::HandleRuntimeException`, so a `ScriptException` raised
while wrapping escapes the lambda (`.error`) — then hand the vector to
`callback->Call` (modelled by the index list `cbTakes` of the arguments
the callback takes and its result `cbResult`), delete every argument
still in the vector, and set the native return value from the callback's
result (which the bridge does not delete). -/
def invokeBridge (cbTakes : List Nat) (cbResult : Option Value)
    (natArgs : List NativeValue) : Except ScriptExc BridgeOutcome :=
  let r := wrapArgsLoop natArgs
  match r.2 with
  | some (.script e) => .error e
  | some (.runtime msg) =>
    .ok ⟨[msg], r.1, (bridgeSweep (takeAll cbTakes r.1)).1, cbResult⟩
  | none =>
    .ok ⟨[], r.1, (bridgeSweep (takeAll cbTakes r.1)).1, cbResult⟩

/-- The exception escaping the argument-wrapping loop: that of the first
argument whose `Wrap` throws (later arguments are never attempted). -/
def firstWrapFault : List NativeValue → Option Thrown
  | [] => none
  | a :: rest =>
    match Value.Wrap a with
    | .ok _ => firstWrapFault rest
    | .error e => some e

/-- The wrapped values of the arguments before the first faulting one
(all of them when no wrap faults). -/
def wrappedBeforeFault : List NativeValue → List (Option Value)
  | [] => []
  | a :: rest =>
    match Value.Wrap a with
    | .ok v => v :: wrappedBeforeFault rest
    | .error _ => []

theorem wrapArgsLoop_eq (natArgs : List NativeValue) :
    wrapArgsLoop natArgs =
      (wrappedBeforeFault natArgs, firstWrapFault natArgs) := by
  induction natArgs with
  | nil => rfl
  | cons a rest ih =>
    cases hw : Value.Wrap a <;>
      simp [wrapArgsLoop, wrappedBeforeFault, firstWrapFault, hw, ih]

/-- A concrete structured exception used at counterexample inputs. -/
def cexExc : ScriptExc :=
  ⟨"TypeError", "boom", "file.js", "trace", "throw boom", 3⟩

/-- C5, counterexample. A fault surfaced by the capture region while
wrapping an argument (here: argument 0 is a boxed Number whose unboxing
conversion faults, so `Wrap` raises `ScriptException` through
`FromJust`/`Throw`) is NOT forwarded to the runtime-fault handler: the
catch clause of the invocation lambda handles only `std::runtime_error`,
so the exception escapes the lambda, the callback is never invoked, and
the claim "every fault raised while wrapping an individual native
argument is forwarded to the runtime-fault handler and is never thrown
back" is false at this input. -/
theorem bridge_wrap_fault_escapes :
    invokeBridge [] none [NativeValue.numberObject (.error cexExc)] =
      .error cexExc := rfl

/-- C5, amended. During a bridged-callback invocation in which no
argument's wrap raises a capture-region fault (`ScriptException`), every
fault raised while wrapping an individual argument — necessarily the
unrecoverable-state `std::runtime_error` — is forwarded to the
runtime-fault handler and not thrown out of the invocation, and the
invocation proceeds, handing the callback exactly the arguments that
wrapped successfully before the fault (wrapping stops at the first
fault). -/
theorem bridge_runtime_fault_forwarded (cbTakes : List Nat)
    (cbResult : Option Value) (natArgs : List NativeValue)
    (h : ∀ e, firstWrapFault natArgs ≠ some (.script e)) :
    ∃ out, invokeBridge cbTakes cbResult natArgs = .ok out ∧
      out.callbackArgs = wrappedBeforeFault natArgs ∧
      out.faults = (match firstWrapFault natArgs with
        | some (.runtime m) => [m]
        | _ => []) ∧
      out.released =
        (bridgeSweep (takeAll cbTakes (wrappedBeforeFault natArgs))).1 ∧
      out.retVal = cbResult := by
  cases hf : firstWrapFault natArgs with
  | none =>
    refine ⟨⟨[], wrappedBeforeFault natArgs,
      (bridgeSweep (takeAll cbTakes (wrappedBeforeFault natArgs))).1,
      cbResult⟩, ?_, rfl, by simp [hf], rfl, rfl⟩
    simp [invokeBridge, wrapArgsLoop_eq, hf]
  | some e =>
    cases e with
    | script e' => exact absurd hf (h e')
    | runtime m =>
      refine ⟨⟨[m], wrappedBeforeFault natArgs,
        (bridgeSweep (takeAll cbTakes (wrappedBeforeFault natArgs))).1,
        cbResult⟩, ?_, rfl, by simp [hf], rfl, rfl⟩
      simp [invokeBridge, wrapArgsLoop_eq, hf]

/-- Witness for C5 (amended): one argument of an unrecognized native
category; its `std::runtime_error` is reported to the runtime-fault
handler and the callback is still invoked, with no arguments. -/
theorem bridge_runtime_fault_forwarded_witness :
    (∀ e : ScriptExc,
      firstWrapFault [NativeValue.other] ≠ some (.script e)) ∧
    ∃ out, invokeBridge [] none [NativeValue.other] = .ok out ∧
      out.callbackArgs = wrappedBeforeFault [NativeValue.other] ∧
      out.faults = (match firstWrapFault [NativeValue.other] with
        | some (.runtime m) => [m]
        | _ => []) ∧
      out.released =
        (bridgeSweep (takeAll [] (wrappedBeforeFault [NativeValue.other]))).1 ∧
      out.retVal = none := by
  refine ⟨fun e => by simp [firstWrapFault, Value.Wrap, isInt32, isNumber,
    isNumberObject, isBoolean, isBooleanObject, isString, isStringObject,
    isArray, isFunction, isObject, isUndefined, isNull], ?_⟩
  exact bridge_runtime_fault_forwarded [] none [NativeValue.other]
    (fun e => by simp [firstWrapFault, Value.Wrap, isInt32, isNumber,
      isNumberObject, isBoolean, isBooleanObject, isString, isStringObject,
      isArray, isFunction, isObject, isUndefined, isNull])

/-! ## Callback lifetime: retain/release and weak finalizers -/

/-- Events in the life of one bridged `Callback`. `unwrap` is one
execution of the Callback branch of `Value::Unwrap` (`V8Simple.cpp`
lines 255-268): `callback->Retain()` plus `persistentCallback.SetWeak`
registering one weak finalizer. `finalize` is the engine's collector
firing one registered finalizer, whose callback runs `cb->Release()`
(lines 261-268). -/
inductive CbEvent where
  | unwrap
  | finalize
deriving DecidableEq, Repr

/-- Bridge-visible state of one Callback: the embedder-side retain count
and the number of weak finalizers registered but not yet fired. -/
structure CbState where
  retainCount : Int
  registered : Int
deriving DecidableEq, Repr

/-- Effect of one event: `Retain()` increments the retain count (and one
more finalizer is registered); a firing finalizer runs `Release()`,
decrementing the count (and is no longer registered). -/
def cbStep (s : CbState) : CbEvent → CbState
  | .unwrap => ⟨s.retainCount + 1, s.registered + 1⟩
  | .finalize => ⟨s.retainCount - 1, s.registered - 1⟩

/-- State after a trace of events, from the initial state (count 0,
nothing registered). -/
def cbRun (tr : List CbEvent) : CbState := tr.foldl cbStep ⟨0, 0⟩

/-- Engine guarantee: the collector fires only finalizers that are
registered and unfired — with `r` finalizers currently available, a
trace is valid iff every `finalize` has one available. -/
def validFrom (r : Nat) : List CbEvent → Bool
  | [] => true
  | .unwrap :: tr => validFrom (r + 1) tr
  | .finalize :: tr => decide (0 < r) && validFrom (r - 1) tr

/-- Number of `unwrap` events. -/
def countU : List CbEvent → Nat
  | [] => 0
  | .unwrap :: tr => countU tr + 1
  | .finalize :: tr => countU tr

/-- Number of fired finalizers. -/
def countF : List CbEvent → Nat
  | [] => 0
  | .unwrap :: tr => countF tr
  | .finalize :: tr => countF tr + 1

theorem cbFoldl (tr : List CbEvent) : ∀ s : CbState,
    tr.foldl cbStep s =
      ⟨s.retainCount + countU tr - countF tr,
       s.registered + countU tr - countF tr⟩ := by
  induction tr with
  | nil => intro s; simp [countU, countF]
  | cons e rest ih =>
    intro s
    cases e with
    | unwrap =>
      rw [List.foldl_cons, ih]
      simp only [cbStep, countU, countF, CbState.mk.injEq]
      constructor <;> push_cast <;> ring
    | finalize =>
      rw [List.foldl_cons, ih]
      simp only [cbStep, countU, countF, CbState.mk.injEq]
      constructor <;> push_cast <;> ring

theorem validFrom_countF (tr : List CbEvent) : ∀ r : Nat,
    validFrom r tr = true → countF tr ≤ r + countU tr := by
  induction tr with
  | nil => intro r _; simp [countF]
  | cons e rest ih =>
    intro r h
    cases e with
    | unwrap =>
      have := ih (r + 1) (by simpa [validFrom] using h)
      simp only [countU, countF]
      omega
    | finalize =>
      rw [validFrom, Bool.and_eq_true, decide_eq_true_eq] at h
      have := ih (r - 1) h.2
      have h0 := h.1
      simp only [countU, countF]
      omega

theorem validFrom_take (tr : List CbEvent) : ∀ (r k : Nat),
    validFrom r tr = true → validFrom r (tr.take k) = true := by
  induction tr with
  | nil => intro r k _; simp [validFrom]
  | cons e rest ih =>
    intro r k h
    cases k with
    | zero => rfl
    | succ k =>
      cases e with
      | unwrap =>
        rw [validFrom] at h
        rw [List.take_succ_cons, validFrom]
        exact ih (r + 1) k h
      | finalize =>
        rw [validFrom, Bool.and_eq_true, decide_eq_true_eq] at h
        rw [List.take_succ_cons, validFrom, Bool.and_eq_true,
          decide_eq_true_eq]
        exact ⟨h.1, ih (r - 1) k h.2⟩

/-- Retain-count transitions into zero along a trace: the number of
event positions whose step lands the count on zero from nonzero. -/
def zeroHits (tr : List CbEvent) : Nat :=
  ((List.range tr.length).filter (fun k =>
    decide ((cbRun (tr.take k)).retainCount ≠ 0 ∧
      (cbRun (tr.take (k + 1))).retainCount = 0))).length

/-- C2. Along any valid event trace for one Callback (the engine fires
only registered, unfired finalizers): the retain count always equals
unwraps minus fired finalizers and also equals the number of outstanding
registered finalizers; it never goes negative at any prefix; it is zero
exactly when every registered finalizer has fired; and in the
two-function-object scenario (two Unwraps, then both native function
objects collected) the count reaches zero exactly once, after both
finalizers fire. -/
theorem callback_retain_balance (tr : List CbEvent)
    (h : validFrom 0 tr = true) :
    ((cbRun tr).retainCount = (countU tr : Int) - countF tr) ∧
    ((cbRun tr).registered = (cbRun tr).retainCount) ∧
    (∀ k, 0 ≤ (cbRun (tr.take k)).retainCount) ∧
    ((cbRun tr).retainCount = 0 ↔ countF tr = countU tr) ∧
    zeroHits [CbEvent.unwrap, CbEvent.unwrap, CbEvent.finalize,
      CbEvent.finalize] = 1 := by
  have hbal : ∀ tr' : List CbEvent, validFrom 0 tr' = true →
      (cbRun tr').retainCount = (countU tr' : Int) - countF tr' := by
    intro tr' h'
    rw [cbRun, cbFoldl]
    push_cast
    ring
  refine ⟨hbal tr h, ?_, ?_, ?_, by decide⟩
  · rw [cbRun, cbFoldl]
  · intro k
    have hk := validFrom_take tr 0 k h
    have hle := validFrom_countF (tr.take k) 0 hk
    rw [hbal (tr.take k) hk]
    omega
  · have hle := validFrom_countF tr 0 h
    rw [hbal tr h]
    constructor
    · intro h0; omega
    · intro h0; omega

/-- Witness for C2: the two-function-object trace is valid, and after
two unwraps and both finalizers the count is zero with nothing left
registered. -/
theorem callback_retain_balance_witness :
    validFrom 0 [CbEvent.unwrap, CbEvent.unwrap, CbEvent.finalize,
      CbEvent.finalize] = true ∧
    (cbRun [CbEvent.unwrap, CbEvent.unwrap, CbEvent.finalize,
      CbEvent.finalize]).retainCount = 0 := by
  constructor
  · decide
  · have := callback_retain_balance [CbEvent.unwrap, CbEvent.unwrap,
      CbEvent.finalize, CbEvent.finalize] (by decide)
    rw [this.1]
    decide

/-! ## The Exception Translator -/

/-- The diagnostic message object (`v8::Message`), restricted to the
fields `Throw` reads: `GetSourceLine(context)` (a Maybe),
`Get()` (a possibly-empty handle), `GetScriptResourceName()` (as UTF-8
text), and `GetLineNumber(context)` (a Maybe). -/
structure MessageObj where
  sourceLine : Option String
  msgGet : Option String
  resourceName : String
  lineNumber : Option Int
deriving DecidableEq, Repr

/-- The capture-region state (`v8::TryCatch`) at the moment `Throw`
runs: `Message()` (none when empty), `Exception()` (none when empty, as
UTF-8 text), `StackTrace(context)` (none when unset). -/
structure CaptureState where
  message : Option MessageObj
  exception : Option String
  stackTrace : Option String
deriving DecidableEq, Repr

/-- `Throw(const V8Scope&)` (`V8Simple.cpp` lines 84-122), with the
thrown `ScriptException` as the result value. The message-derived locals
start as the empty string and -1 and are overwritten only when a message
object is available; the thrown value (`Exception()`) and the stack
trace are read from the capture region in either case, with empty-string
defaults. -/
def Throw (scope : CaptureState) : ScriptExc :=
  let emptyString := ""
  let sourceLine := match scope.message with
    | none => emptyString
    | some m => m.sourceLine.getD emptyString
  let messageStr := match scope.message with
    | none => emptyString
    | some m => m.msgGet.getD emptyString
  let fileName := match scope.message with
    | none => emptyString
    | some m => m.resourceName
  let lineNumber : Int := match scope.message with
    | none => -1
    | some m => m.lineNumber.getD (-1)
  let exception := scope.exception.getD emptyString
  let stackTrace := scope.stackTrace.getD emptyString
  ⟨exception, messageStr, fileName, stackTrace, sourceLine, lineNumber⟩

/-- C4, counterexample. With no diagnostic message object but a pending
thrown value in the capture region, the produced `ScriptException`'s
name field holds the thrown value's text, not the empty string — so
"every string field equals the empty string when no message object is
available" is false at this input. -/
theorem throw_no_message_counterexample :
    (Throw ⟨none, some "boom", none⟩).Name = "boom" ∧
    (Throw ⟨none, some "boom", none⟩).Name ≠ "" :=
  ⟨rfl, by decide⟩

/-- C4, amended. When the translator runs with no diagnostic message
object available, the message-derived fields (error message, file name,
source line) are the empty string and the line number is -1, while the
name (raw thrown value) and the stack trace are still pulled from the
capture region, each defaulting to the empty string if unset; when a
message object is available, source line, formatted message, resource
name and line number are pulled from it (empty / -1 defaults), and the
raw thrown value and stack trace are pulled from the capture region,
each defaulting to the empty string if unset. -/
theorem throw_field_extraction (ex st : Option String) :
    (∀ m : MessageObj, Throw ⟨some m, ex, st⟩ =
      ⟨ex.getD "", m.msgGet.getD "", m.resourceName, st.getD "",
        m.sourceLine.getD "", m.lineNumber.getD (-1)⟩) ∧
    Throw ⟨none, ex, st⟩ = ⟨ex.getD "", "", "", st.getD "", "", -1⟩ :=
  ⟨fun _ => rfl, rfl⟩

/-! ## Context: singleton construction and Evaluate -/

/-- The data of a live `Context` reachable through the static singleton:
the registered handlers (abstract identities, `none` = null) and the
bootstrap-derived `_instanceOf` function handle. -/
structure CtxData where
  scriptExceptionHandler : Option Nat
  runtimeExceptionHandler : Option Nat
  instanceOfFun : Option Nat
deriving DecidableEq, Repr

/-- Process-wide state: `Context::_globalContext` plus the observable
effect channels — the diagnostic strings delivered to the runtime-fault
handler and the exceptions delivered to the script-exception handler. -/
structure GlobalState where
  globalContext : Option CtxData
  runtimeFaults : List String
  scriptFaults : List ScriptExc
deriving DecidableEq, Repr

/-- `Context::HandleRuntimeException` (`V8Simple.cpp` lines 769-775):
the message is delivered iff a context is live and its runtime handler
is registered. -/
def Context.HandleRuntimeException (g : GlobalState) (e : String) :
    GlobalState :=
  match g.globalContext with
  | some c =>
    match c.runtimeExceptionHandler with
    | some _ => { g with runtimeFaults := g.runtimeFaults ++ [e] }
    | none => g
  | none => g

/-- `Context::HandleScriptException` (`V8Simple.cpp` lines 761-767):
delivered iff the live context's script handler is registered (the
source dereferences the singleton unconditionally here; it is only
called from operations of a live context, so the no-context arm is
unreachable and modelled as a no-op). -/
def Context.HandleScriptException (g : GlobalState) (e : ScriptExc) :
    GlobalState :=
  match g.globalContext with
  | some c =>
    match c.scriptExceptionHandler with
    | some _ => { g with scriptFaults := g.scriptFaults ++ [e] }
    | none => g
  | none => g

/-- Outcome of `Context::Context`. -/
inductive CtorResult where
  | failed
  | constructed
deriving DecidableEq, Repr

/-- `Context::Context` (`V8Simple.cpp` lines 843-911). If a context is
already live: report "V8Simple::Contexts are not re-entrant" through the
(live context's) runtime-fault handler and return immediately, touching
no other state. Otherwise: register the singleton with the given
handlers, bootstrap the engine, and evaluate the fixed `instanceof`
bootstrap script — its wrapped result is passed in as `bootstrap`;
a Function result is stored as `_instanceOf`, anything else is the
runtime fault "V8Simple could not create an instanceof function". -/
def Context.construct (g : GlobalState)
    (scriptExceptionHandler runtimeExceptionHandler : Option Nat)
    (bootstrap : Option Value) : GlobalState × CtorResult :=
  match g.globalContext with
  | some _ =>
    (Context.HandleRuntimeException g
      "V8Simple::Contexts are not re-entrant", .failed)
  | none =>
    let registered : Option Nat → CtxData := fun instOf =>
      ⟨scriptExceptionHandler, runtimeExceptionHandler, instOf⟩
    match bootstrap with
    | some (Value.function h) =>
      ({ g with globalContext := some (registered (some h)) },
       .constructed)
    | _ =>
      (Context.HandleRuntimeException
        { g with globalContext := some (registered none) }
        "V8Simple could not create an instanceof function", .constructed)

/-- C6. Constructing a Context while another is live reports the
runtime fault "V8Simple::Contexts are not re-entrant" through the live
context's runtime-fault handler (the constructor returns — nothing is
thrown), the construction fails immediately, and the state is otherwise
untouched: the live context remains the registered singleton with
identical data, so every operation of the live context behaves exactly
as before the attempt. -/
theorem context_singleton_guard (c : CtxData) (rf : List String)
    (sf : List ScriptExc) (sh rh : Option Nat)
    (bootstrap : Option Value) :
    Context.construct ⟨some c, rf, sf⟩ sh rh bootstrap =
      (⟨some c,
        rf ++ (if c.runtimeExceptionHandler.isSome
          then ["V8Simple::Contexts are not re-entrant"] else []),
        sf⟩, .failed) := by
  cases hc : c.runtimeExceptionHandler <;>
    simp [Context.construct, Context.HandleRuntimeException, hc]

/-- Outcome of the engine compiling and running a script: a
capture-region fault (compile error, or a value thrown during the run —
already translated by `FromJust`/`Throw` into a `ScriptException`), or
the run's resulting native value. -/
inductive EngineOutcome where
  | fault (e : ScriptExc)
  | value (v : NativeValue)

/-- `Context::Evaluate(const char* fileName, const char* code)`
(`V8Simple.cpp` lines 952-989). Null checks first: a null argument is a
runtime fault and a null result, without consulting the engine. With
both arguments present, compile and run inside a `V8Scope` (abstracted
as the oracle `engine`) and `Value::Wrap` the result; a
`ScriptException` is routed to the script-exception handler and a
`std::runtime_error` to the runtime-fault handler, each yielding a null
result. -/
def Context.Evaluate (engine : String → String → EngineOutcome)
    (g : GlobalState) (fileName code : Option String) :
    GlobalState × Option Value :=
  match fileName with
  | none =>
    (Context.HandleRuntimeException g
      "V8Simple::Context::Evaluate is not defined for nullptr `fileName` argument",
     none)
  | some f =>
    match code with
    | none =>
      (Context.HandleRuntimeException g
        "V8Simple::Context::Evaluate is not defined for nullptr `code` argument",
       none)
    | some c =>
      match engine f c with
      | .fault e => (Context.HandleScriptException g e, none)
      | .value v =>
        match Value.Wrap v with
        | .ok r => (g, r)
        | .error (.script e) => (Context.HandleScriptException g e, none)
        | .error (.runtime m) => (Context.HandleRuntimeException g m, none)

/-- C7. `Evaluate` with an absent argument performs no engine work (the
result does not depend on the engine oracle), reports the matching
runtime fault and returns the absent result; with both arguments present
it runs the source and Wraps the result, and a compile-or-run fault is
delivered to the script-exception handler as a `ScriptException` while
the caller receives the absent result. -/
theorem evaluate_null_checks_and_faults :
    (∀ (engine engine' : String → String → EngineOutcome)
       (g : GlobalState) (code : Option String),
      Context.Evaluate engine g none code =
        Context.Evaluate engine' g none code ∧
      Context.Evaluate engine g none code =
        (Context.HandleRuntimeException g
          "V8Simple::Context::Evaluate is not defined for nullptr `fileName` argument",
         none)) ∧
    (∀ (engine engine' : String → String → EngineOutcome)
       (g : GlobalState) (f : String),
      Context.Evaluate engine g (some f) none =
        Context.Evaluate engine' g (some f) none ∧
      Context.Evaluate engine g (some f) none =
        (Context.HandleRuntimeException g
          "V8Simple::Context::Evaluate is not defined for nullptr `code` argument",
         none)) ∧
    (∀ (engine : String → String → EngineOutcome) (g : GlobalState)
       (f c : String) (e : ScriptExc),
      engine f c = .fault e →
      Context.Evaluate engine g (some f) (some c) =
        (Context.HandleScriptException g e, none)) ∧
    (∀ (engine : String → String → EngineOutcome) (g : GlobalState)
       (f c : String) (v : NativeValue) (r : Option Value),
      engine f c = .value v → Value.Wrap v = .ok r →
      Context.Evaluate engine g (some f) (some c) = (g, r)) := by
  refine ⟨fun engine engine' g code => ⟨rfl, rfl⟩,
    fun engine engine' g f => ⟨rfl, rfl⟩, ?_, ?_⟩
  · intro engine g f c e he
    simp [Context.Evaluate, he]
  · intro engine g f c v r he hw
    simp [Context.Evaluate, he, hw]

/-- Witness for C7 at a concrete oracle and state: a faulting script is
delivered to the script-exception handler with an absent result, and a
successful run of a script yielding the int32 2 returns `Int 2`. -/
theorem evaluate_null_checks_and_faults_witness :
    Context.Evaluate (fun _ _ => .fault cexExc)
      ⟨some ⟨some 1, some 2, some 3⟩, [], []⟩ (some "t") (some "x") =
      (⟨some ⟨some 1, some 2, some 3⟩, [], [cexExc]⟩, none) ∧
    Context.Evaluate (fun _ _ => .value (.int32 2))
      ⟨some ⟨some 1, some 2, some 3⟩, [], []⟩ (some "t") (some "1+1") =
      (⟨some ⟨some 1, some 2, some 3⟩, [], []⟩, some (Value.int 2)) := by
  constructor
  · rw [evaluate_null_checks_and_faults.2.2.1 (fun _ _ => .fault cexExc)
      ⟨some ⟨some 1, some 2, some 3⟩, [], []⟩ "t" "x" cexExc rfl]
    rfl
  · rw [evaluate_null_checks_and_faults.2.2.2 (fun _ _ => .value (.int32 2))
      ⟨some ⟨some 1, some 2, some 3⟩, [], []⟩ "t" "1+1" (.int32 2)
      (some (Value.int 2)) rfl rfl]

/-! ## String construction -/

/-- `new char[n]`: a fresh buffer of `n` cells whose contents are
indeterminate; the oracle `junk` supplies the indeterminate bytes. -/
def newCharArray (junk : Nat → Nat) (n : Nat) : List Nat :=
  (List.range n).map junk

/-- `memcpy(dst, src, n)` over byte buffers (defined behavior requires
`n ≤ src.length` and `n ≤ dst.length`). -/
def memcpyBytes (dst src : List Nat) (n : Nat) : List Nat :=
  src.take n ++ dst.drop n

/-- A constructed `String` object (`V8Simple.h` / `V8Simple.cpp`):
the allocation identity of its `new char[length + 1]` buffer (`_value`),
the stored length (`_length`), and the buffer's bytes, terminating nul
included. -/
structure StrObj where
  id : Nat
  len : Nat
  buf : List Nat
deriving DecidableEq, Repr

/-- `String::String(const char* value, int length)` (`V8Simple.cpp`
lines 15-24): allocate `length + 1` fresh bytes, memcpy `length` bytes
from `value` when `length > 0` and `value` is not null, and write the
terminating nul at index `length`. The pointer is `none` when null,
otherwise the bytes readable at it; `junk` models the fresh allocation's
indeterminate content and `fresh` its identity. -/
def strCtorLen (junk : Nat → Nat) (fresh : Nat)
    (value : Option (List Nat)) (length : Nat) : StrObj :=
  let alloc := newCharArray junk (length + 1)
  let copied :=
    if 0 < length ∧ value.isSome then
      memcpyBytes alloc (value.getD []) length
    else alloc
  ⟨fresh, length, copied.set length 0⟩

/-- `String::String(const char* value)` (`V8Simple.cpp` lines 10-13):
length 0 for the null pointer, else `strlen(value)`. A non-null C string
is modelled as its bytes before the terminating nul, so `strlen` is the
list length. -/
def strCtorPtr (junk : Nat → Nat) (fresh : Nat)
    (value : Option (List Nat)) : StrObj :=
  strCtorLen junk fresh value
    (match value with
     | none => 0
     | some v => v.length)

/-- `String::String(const v8::String::Utf8Value&)` (`V8Simple.cpp`
lines 40-43): delegates `(v.length() > 0 ? *v : nullptr, v.length())`,
the conversion's content being its byte list. -/
def strCtorUtf8 (junk : Nat → Nat) (fresh : Nat)
    (bytes : List Nat) : StrObj :=
  strCtorLen junk fresh
    (if 0 < bytes.length then some bytes else none) bytes.length

/-- `String::String(const String& str)` (`V8Simple.cpp` lines 35-38):
delegates to the (pointer, length) constructor with the source's buffer
pointer and stored length — a fresh allocation, never the original
buffer. -/
def strCtorCopy (junk : Nat → Nat) (fresh : Nat) (s : StrObj) : StrObj :=
  strCtorLen junk fresh (some s.buf) s.len

theorem newCharArray_length (junk : Nat → Nat) (n : Nat) :
    (newCharArray junk n).length = n := by
  simp [newCharArray]

theorem strCtorLen_some_buf (junk : Nat → Nat) (fresh : Nat)
    (v : List Nat) (length : Nat) (h : length ≤ v.length) :
    (strCtorLen junk fresh (some v) length).buf =
      v.take length ++ [0] := by
  cases length with
  | zero =>
    simp [strCtorLen, newCharArray, List.range_succ]
  | succ n =>
    have hcopy : memcpyBytes (newCharArray junk (n + 1 + 1)) v (n + 1) =
        v.take (n + 1) ++ [junk (n + 1)] := by
      rw [memcpyBytes, newCharArray, List.range_succ, List.map_append]
      rw [List.drop_left' (by simp)]
      simp
    simp only [strCtorLen, Nat.zero_lt_succ, Option.isSome_some,
      and_self, if_true, Option.getD_some, hcopy]
    rw [List.set_append_right _ _ (by simp [List.length_take])]
    simp [List.length_take, Nat.min_eq_left h]

theorem strCtorLen_buf_length (junk : Nat → Nat) (fresh : Nat)
    (value : Option (List Nat)) (length : Nat)
    (h : ∀ v, value = some v → length ≤ v.length) :
    (strCtorLen junk fresh value length).buf.length = length + 1 := by
  cases value with
  | none => simp [strCtorLen, newCharArray]
  | some v =>
    rw [strCtorLen_some_buf junk fresh v length (h v rfl)]
    simp [List.length_take, Nat.min_eq_left (h v rfl)]

/-- C10. Every `String` constructor produces a fresh buffer (identity =
the new allocation), stores the length, and nul-terminates the buffer at
the stored length; the one-argument constructor on the null pointer
yields the empty string `⟨fresh, 0, [0]⟩`, on a non-null C string copies
its bytes; the UTF-8 constructor copies the conversion's bytes; and the
copy constructor copies the original's buffer content into the fresh
allocation — the copy's buffer identity is the fresh allocation, never
the original's. -/
theorem StrObj.eq_of (a b : StrObj) (h1 : a.id = b.id)
    (h2 : a.len = b.len) (h3 : a.buf = b.buf) : a = b := by
  cases a
  cases b
  simp_all

theorem string_ctor_fresh_nul_terminated (junk : Nat → Nat)
    (fresh : Nat) :
    (∀ (value : Option (List Nat)) (length : Nat),
      (∀ v, value = some v → length ≤ v.length) →
      (strCtorLen junk fresh value length).id = fresh ∧
      (strCtorLen junk fresh value length).len = length ∧
      (strCtorLen junk fresh value length).buf.length = length + 1 ∧
      (strCtorLen junk fresh value length).buf.getD length 1 = 0) ∧
    (strCtorPtr junk fresh none = ⟨fresh, 0, [0]⟩) ∧
    (∀ v : List Nat,
      strCtorPtr junk fresh (some v) = ⟨fresh, v.length, v ++ [0]⟩) ∧
    (∀ bytes : List Nat,
      strCtorUtf8 junk fresh bytes =
        ⟨fresh, bytes.length, bytes ++ [0]⟩) ∧
    (∀ s : StrObj, s.buf = s.buf.take s.len ++ [0] →
      strCtorCopy junk fresh s = ⟨fresh, s.len, s.buf⟩ ∧
      (fresh ≠ s.id → (strCtorCopy junk fresh s).id ≠ s.id)) := by
  have hsome : ∀ v : List Nat,
      strCtorLen junk fresh (some v) v.length =
        ⟨fresh, v.length, v ++ [0]⟩ := by
    intro v
    refine StrObj.eq_of _ _ rfl rfl ?_
    have hbuf := strCtorLen_some_buf junk fresh v v.length le_rfl
    rw [List.take_length] at hbuf
    exact hbuf
  refine ⟨?_, ?_, ?_, ?_, ?_⟩
  · intro value length h
    have hlen := strCtorLen_buf_length junk fresh value length h
    refine ⟨rfl, rfl, hlen, ?_⟩
    cases value with
    | none =>
      have hl : length < (newCharArray junk (length + 1)).length := by
        simp [newCharArray]
      simp only [strCtorLen, Option.isSome_none, Bool.false_eq_true,
        and_false, if_false]
      rw [List.getD_eq_getElem?_getD, List.getElem?_set_self hl]
      rfl
    | some v =>
      have hmin : (v.take length).length = length := by
        simp [List.length_take, Nat.min_eq_left (h v rfl)]
      rw [strCtorLen_some_buf junk fresh v length (h v rfl)]
      rw [List.getD_eq_getElem?_getD,
        List.getElem?_append_right (le_of_eq hmin), hmin]
      simp
  · refine StrObj.eq_of _ _ rfl rfl ?_
    have hl : (0 : Nat) < (newCharArray junk 1).length := by
      simp [newCharArray]
    show ((newCharArray junk 1).set 0 0) = [0]
    simp [newCharArray, List.range_succ]
  · intro v
    rw [strCtorPtr]
    exact hsome v
  · intro bytes
    cases bytes with
    | nil =>
      refine StrObj.eq_of _ _ rfl rfl ?_
      show ((newCharArray junk 1).set 0 0) = [] ++ [0]
      simp [newCharArray, List.range_succ]
    | cons x xs =>
      rw [strCtorUtf8]
      rw [if_pos (by simp)]
      exact hsome (x :: xs)
  · intro s hwf
    have hlen : s.buf.length = min s.len s.buf.length + 1 := by
      conv_lhs => rw [hwf]
      simp [List.length_take]
    have hlt : s.len < s.buf.length := by omega
    have hbuf : (strCtorCopy junk fresh s).buf = s.buf := by
      rw [strCtorCopy, strCtorLen_some_buf junk fresh s.buf s.len
        (le_of_lt hlt)]
      exact hwf.symm
    refine ⟨StrObj.eq_of _ _ rfl rfl hbuf, fun hne => ?_⟩
    have hid : (strCtorCopy junk fresh s).id = fresh := rfl
    rw [hid]
    exact hne

/-- Witness for C10 at concrete inputs: copying the string "ab"
(buffer `[97, 98, 0]`, length 2, allocation id 5) with fresh allocation
id 6 reproduces the content in a distinct allocation, and the null
pointer yields the empty string. -/
theorem string_ctor_fresh_nul_terminated_witness :
    strCtorCopy (fun _ => 7) 6 ⟨5, 2, [97, 98, 0]⟩ =
      ⟨6, 2, [97, 98, 0]⟩ ∧
    (strCtorCopy (fun _ => 7) 6 ⟨5, 2, [97, 98, 0]⟩).id ≠ 5 ∧
    strCtorPtr (fun _ => 7) 6 none = ⟨6, 0, [0]⟩ := by
  have h := string_ctor_fresh_nul_terminated (fun _ => 7) 6
  have hc := h.2.2.2.2 ⟨5, 2, [97, 98, 0]⟩ (by decide)
  exact ⟨hc.1, hc.2 (by decide), h.2.1⟩

end V8Simple
